import Mathlib

/-!
# Verification of the agent-framework tailer / event-store core

Shallow embedding of the code in `src/openclaw_tailer.py`, `src/db/events.py`
and `src/db/prune.py`.  Python strings are modelled as `List Char` (one char
per byte; the logs are ASCII-oriented), dictionaries as association lists,
and SQLite state as an explicit record.  Each definition mirrors the Python
function of the same (snake-case) name.
-/

namespace AgentFramework

/-- Python `str` values, modelled as lists of characters. -/
abbrev Str := List Char

/-- Convert a Lean string literal to the model type. -/
def strL (s : String) : Str := s.data

/-- The whitespace characters stripped by Python's default `str.strip()`
(space, tab, LF, CR, VT, FF). -/
def pySpace (c : Char) : Bool :=
  c == ' ' || c == '\t' || c == '\n' || c == '\r' || c == '\x0b' || c == '\x0c'

/-- Python `s.lstrip()`. -/
def lstrip (s : Str) : Str := s.dropWhile pySpace

/-- Python `s.rstrip()`. -/
def rstrip (s : Str) : Str := (s.reverse.dropWhile pySpace).reverse

/-- Python `s.strip()`. -/
def pyStrip (s : Str) : Str := rstrip (lstrip s)

/-- Python `s.lower()` (ASCII case folding suffices for the classifier). -/
def lower (s : Str) : Str := s.map Char.toLower

/-- Python `s.startswith(p)`. -/
def startsWith (p s : Str) : Bool := p.isPrefixOf s

/-- Python `needle in hay` substring test. -/
def containsSub (needle : Str) : Str → Bool
  | [] => needle.isPrefixOf []
  | c :: rest => needle.isPrefixOf (c :: rest) || containsSub needle rest

/-- Index of the first occurrence of `needle` in `hay`, if any. -/
def findSubIdx (needle : Str) : Str → Option Nat
  | [] => if needle.isPrefixOf [] then some 0 else none
  | c :: rest =>
    if needle.isPrefixOf (c :: rest) then some 0
    else (findSubIdx needle rest).map (· + 1)

/-- Python `s.split(sep, 1)[1]` when `sep in s`, and `''` otherwise (the code
only uses this combination, always guarding with `in` or defaulting to `''`). -/
def splitAfterFirst (marker : Str) : Str → Str
  | [] => []
  | c :: rest =>
    if marker.isPrefixOf (c :: rest) then (c :: rest).drop marker.length
    else splitAfterFirst marker rest

/-- Core loop of `str.splitlines`: `acc` holds the current line reversed,
and the flag records that the previous character was `\r` (so that a
directly following `\n` is part of the same `\r\n` break).  Line breaks are
`\r\n`, `\r` and `\n` (the further unicode boundaries Python recognises do
not occur in this system's data).  A trailing break does not produce a
final empty line, matching Python. -/
def splitlinesCore : Str → Str → Bool → List Str
  | [], acc, _ => if acc.isEmpty then [] else [acc.reverse]
  | c :: rest, acc, afterCr =>
    if c == '\n' then
      if afterCr then splitlinesCore rest [] false
      else acc.reverse :: splitlinesCore rest [] false
    else if c == '\r' then acc.reverse :: splitlinesCore rest [] true
    else splitlinesCore rest (c :: acc) false

/-- Python `s.splitlines()`. -/
def splitlines (s : Str) : List Str := splitlinesCore s [] false

/-- One step of Python's whitespace `str.split()` (fuelled recursion). -/
def wordsAux : Nat → Str → List Str
  | 0, _ => []
  | n + 1, s =>
    let t := s.dropWhile pySpace
    if t.isEmpty then []
    else t.takeWhile (fun c => !(pySpace c)) ::
      wordsAux n (t.dropWhile (fun c => !(pySpace c)))

/-- Python `s.split()` (split on whitespace runs, no empty fields). -/
def words (s : Str) : List Str := wordsAux s.length s

/-- Python `sep.join(xs)`. -/
def joinSep (sep : Str) (xs : List Str) : Str := List.intercalate sep xs

/-- `_short(s, n)` from openclaw_tailer.py: strip, then truncate to `n`
characters with an ellipsis. -/
def shortS (s : Str) (n : Nat) : Str :=
  let t := pyStrip s
  if t.length ≤ n then t else t.take (n - 1) ++ ['…']

/-- Python `l[-n:]` (keep the last `n` elements). -/
def takeLast (n : Nat) (l : List α) : List α := l.drop (l.length - n)

/-- `list(dict.fromkeys(xs))` / manual seen-set dedup: keep the first
occurrence of each element, preserving order.  `seen` is the set of
already-kept elements. -/
def dedupKeepFirst : List Str → List Str → List Str
  | [], _ => []
  | x :: rest, seen =>
    if seen.contains x then dedupKeepFirst rest seen
    else x :: dedupKeepFirst rest (x :: seen)

/-- Python `x or y` for an optional string: `x` if present and non-empty,
else `y`. -/
def pyTruthy (o : Option Str) : Option Str :=
  match o with
  | some s => if s.isEmpty then none else some s
  | none => none

/-- `args.get(k)` on the modelled argument dict. -/
def argGet (args : List (Str × Str)) (k : Str) : Option Str :=
  (args.find? (fun kv => kv.1 == k)).map (·.2)

/-- `str(args.get(k, default))` where absent keys fall back to `default`. -/
def argGetD (args : List (Str × Str)) (k : Str) (d : Str) : Str :=
  (argGet args k).getD d

/-!
## Durable event store (src/db/events.py) and pruning (src/db/prune.py)
-/

/-- The JSON payload `{"ts":…, "agent":…, "type":…, "summary":…, "detail":…}`
built by `append_event`; serialization by `json.dumps` is modelled by the
record itself. -/
structure EventPayload where
  ts : Str
  agent : Str
  typ : Str
  summary : Str
  detail : List (Str × Str)
deriving DecidableEq

/-- One row of the `events` table. -/
structure StoredEvent where
  id : Nat
  ts : Str
  agent : Str
  typ : Str
  summary : Str
  detailJson : EventPayload
deriving DecidableEq

/-- The SQLite `events` table plus its AUTOINCREMENT counter (`nextId` is the
id the next inserted row receives; AUTOINCREMENT never reuses ids). -/
structure EventStore where
  rows : List StoredEvent
  nextId : Nat
deriving DecidableEq

/-- `append_event(agent, typ, summary, detail, ts)` from src/db/events.py:
insert one row and return the fresh `lastrowid`.  A database failure in the
source is an uncaught exception, i.e. it is surfaced to the caller; the
success path is the function below. -/
def appendEvent (db : EventStore) (agent typ summary : Str)
    (detail : List (Str × Str)) (ts : Str) : EventStore × Nat :=
  (⟨db.rows ++ [⟨db.nextId, ts, agent, typ, summary, ⟨ts, agent, typ, summary, detail⟩⟩],
    db.nextId + 1⟩, db.nextId)

/-- Python exceptions relevant to the append path. -/
inductive PyErr where
  | typeError
  | dbError
deriving DecidableEq

/-- Embedding of the exact call made at openclaw_tailer.py line 80:
`append_event(agent=…, typ=…, summary=…, detail_text=…, detail=…, ts=…)`.
The callee `append_event` (src/db/events.py) accepts only the keyword
parameters `agent, typ, summary, detail, ts, db_path`; `detail_text` is not
among them, so Python raises `TypeError` before the store is touched.  The
arguments are retained to mirror the call site. -/
def appendEventCallFromAppendSol (_db : EventStore)
    (_agent _typ _summary _detailText _ts : Str) :
    Except PyErr (EventStore × Nat) :=
  .error .typeError

/-- One entry in `d["agents"][agent]` in the dashboard JSON. -/
structure SolEntry where
  typ : Str
  timestamp : Str
  content : Str
  details : Str
  full_timestamp : Str
deriving DecidableEq

/-- One entry in the `thoughts` / `worklog` streams of the dashboard. -/
structure StreamEntry where
  timestamp : Str
  typ : Str
  content : Str
  detail_text : Str
deriving DecidableEq

/-- One entry in the `improvements` stream of the dashboard. -/
structure ImprovementEntry where
  timestamp : Str
  title : Str
  content : Str
  detail_text : Str
deriving DecidableEq

/-- The in-memory dashboard data (`d`) mutated by `append_sol`. -/
structure Dashboard where
  agents : List (Str × List SolEntry)
  thoughts : List StreamEntry
  worklog : List StreamEntry
  improvements : List ImprovementEntry
deriving DecidableEq

/-- `d.setdefault("agents", {}).setdefault(agent, [])` followed by append and
`[-2000:]` capping: update the per-agent list in the dict, creating the key
at the end if missing (Python dicts preserve insertion order). -/
def agentsAppendCap (m : List (Str × List SolEntry)) (agent : Str)
    (e : SolEntry) : List (Str × List SolEntry) :=
  match m with
  | [] => [(agent, takeLast 2000 [e])]
  | (k, v) :: rest =>
    if k == agent then (k, takeLast 2000 (v ++ [e])) :: rest
    else (k, v) :: agentsAppendCap rest agent e

/-- The cognitive event kinds recognised throughout the tailer. -/
def cognitiveKinds : List Str :=
  [strL ("thought"), strL ("idea"), strL ("plan"), strL ("reflection"),
   strL ("decision"), strL ("risk"), strL ("insight"), strL ("highlight")]

/-- `append_sol(d, typ, content, detail_text, agent)` from openclaw_tailer.py.
The two wall-clock timestamps (`now_ts()` and the ISO timestamp) are passed
as parameters `tsShort`/`tsIso`.  The durable append at line 80 is wrapped in
`try: … except Exception: pass`, so the `TypeError` raised by the mismatched
keyword argument (see `appendEventCallFromAppendSol`) is swallowed and the
function always returns normally (`Except.ok`), with the event store
unchanged. -/
def appendSol (d : Dashboard) (db : EventStore)
    (typ content detailText agent tsShort tsIso : Str) :
    Except PyErr (Dashboard × EventStore) :=
  let entry : SolEntry :=
    ⟨typ, tsShort, content.take 500,
     if detailText.isEmpty then [] else detailText.take 12000, tsIso⟩
  let d1 : Dashboard := { d with agents := agentsAppendCap d.agents agent entry }
  let db1 :=
    match appendEventCallFromAppendSol db agent typ (content.take 200)
        (detailText.take 8000) tsIso with
    | .ok (db2, _) => db2
    | .error _ => db
  let d2 :=
    if cognitiveKinds.contains typ then
      { d1 with thoughts := takeLast 800 (d1.thoughts ++
          [⟨tsShort, typ, content.take 500,
            if detailText.isEmpty then content.take 2000 else detailText.take 12000⟩]) }
    else d1
  let d3 :=
    if typ == strL ("worklog") then
      { d2 with worklog := takeLast 800 (d2.worklog ++
          [⟨tsShort, strL ("worklog"), content.take 500,
            if detailText.isEmpty then content.take 2000 else detailText.take 12000⟩]) }
    else d2
  let d4 :=
    if typ == strL ("improvement") then
      { d3 with improvements := takeLast 300 (d3.improvements ++
          [⟨tsShort, content.take 100,
            if (detailText.take 2000).isEmpty then content.take 300 else detailText.take 2000,
            if detailText.isEmpty then content.take 2000 else detailText.take 12000⟩]) }
    else d3
  .ok (d4, db1)

/-- Insert into a descending-sorted list (model of `ORDER BY id DESC`). -/
def insertDesc (x : Nat) : List Nat → List Nat
  | [] => [x]
  | y :: ys => if x ≥ y then x :: y :: ys else y :: insertDesc x ys

/-- Sort descending (insertion sort). -/
def sortDesc (l : List Nat) : List Nat := l.foldr insertDesc []

/-- `prune(db_path, keep_last)` from src/db/prune.py:
`SELECT id FROM events ORDER BY id DESC LIMIT 1 OFFSET keep_last` picks the
id at (0-based) offset `keep_last` of the descending id order; if such a row
exists (and its id is truthy, i.e. non-zero), every row with `id < cutoff`
is deleted and the cutoff is returned.  `VACUUM`/`commit` have no logical
effect on the row set. -/
def prune (db : EventStore) (keepLast : Nat) : EventStore × Option Nat :=
  match (sortDesc (db.rows.map (·.id))).drop keepLast with
  | [] => (db, none)
  | cutoff :: _ =>
    if cutoff == 0 then (db, none)
    else ({ db with rows := db.rows.filter (fun r => !(r.id < cutoff : Bool)) }, some cutoff)

/-- A dummy row with a given id (store contents beyond ids are irrelevant to
pruning). -/
def mkRow (i : Nat) : StoredEvent :=
  ⟨i, [], [], [], [], ⟨[], [], [], [], []⟩⟩

/-- A store holding 500 events with ids 1..500 (the spec's pruning-bound
scenario). -/
def store500 : EventStore :=
  ⟨(List.range 500).map (fun i => mkRow (i + 1)), 501⟩

/-!
## Tailer (`_tail_new_lines` and the per-file pass of `main`)
-/

/-- One `f.readline()`: everything up to and including the next `'\n'`, or the
rest of the file if no newline remains (Python returns the partial trailing
line at EOF). -/
def readline1 (s : Str) : Str :=
  let pre := s.takeWhile (fun c => !(c == '\n'))
  if pre.length < s.length then pre ++ ['\n'] else pre

/-- The `while True: line = f.readline(); …` loop of `_tail_new_lines`,
fuelled by the `max_lines` cap: read lines until EOF or the cap. -/
def readlines : Nat → Str → List Str
  | 0, _ => []
  | n + 1, s =>
    let line := readline1 s
    if line.isEmpty then []
    else line :: readlines n (s.drop line.length)

/-- `_tail_new_lines(path, start_pos, max_lines)`: seek to `start_pos` and
yield up to `max_lines` lines (file content modelled as its character
sequence). -/
def tailNewLines (content : Str) (startPos : Nat) (maxLines : Nat) : List Str :=
  readlines maxLines (content.drop startPos)

/-- The truncation check of `main` (openclaw_tailer.py lines 820-826):
`if last_pos > size: last_pos = 0`. -/
def resolveOffset (lastPos size : Nat) : Nat :=
  if lastPos > size then 0 else lastPos

/-- The lines read for one file in one pass of `main`'s loop: resolve the
stored offset against the current size, then tail with `max_lines=500`. -/
def tailPass (content : Str) (lastPos : Nat) : List Str :=
  tailNewLines content (resolveOffset lastPos content.length) 500

/-- The offset recorded after the pass: `last_pos += len(line.encode())` for
every yielded line (one char per byte in this model). -/
def tailPassOffset (content : Str) (lastPos : Nat) : Nat :=
  resolveOffset lastPos content.length +
    ((tailPass content lastPos).map (·.length)).sum

/-!
## Classifier helpers (openclaw_tailer.py)
-/

/-- `_strip_leading_timestamp(s)`: drop a leading `[…]` prefix when the `]`
occurs within the first 64 characters. -/
def stripLeadingTimestamp (s : Str) : Str :=
  let t := lstrip s
  if startsWith (strL ("[")) t && containsSub (strL ("]")) (t.take 64) then
    lstrip ((t.dropWhile (fun c => !(c == ']'))).drop 1)
  else t

/-- `_topic_summary(s)`: ordered keyword rules for the feed title. -/
def topicSummary (s : Str) : Str :=
  let t := stripLeadingTimestamp s
  let low := lower t
  if startsWith (strL ("system:")) low then strL ("System notice")
  else if containsSub (strL ("dashboard")) low || containsSub (strL ("portal")) low then
    if containsSub (strL ("timestamp")) low then
      strL ("Dashboard: clean feed (remove timestamps)")
    else if containsSub (strL ("sys.json")) low || containsSub (strL ("telemetry")) low ||
        containsSub (strL ("spark")) low || containsSub (strL ("sparkline")) low ||
        containsSub (strL ("metrics")) low then
      strL ("Dashboard: system monitors & graphs")
    else if containsSub (strL ("tiles")) low || containsSub (strL ("history")) low then
      strL ("Dashboard: agent tiles & history")
    else strL ("Dashboard: UX / live feed")
  else if containsSub (strL ("rapp")) low then strL ("RAPP: research run")
  else shortS (t.map (fun c => if c == '\n' then ' ' else c)) 90

/-- `_tool_purpose(tool_name, args)`: best-effort `(why, accomplished)`
heuristics.  `str(args.get(k))` renders an absent key as `"None"`. -/
def toolPurpose (toolName : Str) (args : List (Str × Str)) : Str × Str :=
  if toolName == strL ("web_fetch") then
    let url := argGetD args (strL ("url")) (strL ("None"))
    (strL ("to fetch a source page"), strL ("fetched: ") ++ shortS url 80)
  else if toolName == strL ("web_search") then
    let q := argGetD args (strL ("query")) (strL ("None"))
    (strL ("to search the web"), strL ("query: ") ++ shortS q 80)
  else if toolName == strL ("exec") then
    let scmd := argGetD args (strL ("command")) []
    if containsSub (strL ("systemctl")) scmd then
      (strL ("to manage/check services"), strL ("checked service status"))
    else if containsSub (strL ("curl")) scmd then
      (strL ("to check an endpoint"), strL ("verified HTTP response"))
    else if containsSub (strL ("git ")) scmd then
      (strL ("to update repository state"), strL ("updated repo"))
    else if containsSub (strL ("df ")) scmd || containsSub (strL ("free ")) scmd ||
        containsSub (strL ("uptime")) scmd then
      (strL ("to read system metrics"), strL ("collected system stats"))
    else
      (strL ("to run a system command"),
       shortS (scmd.map (fun c => if c == '\n' then ' ' else c)) 120)
  else if toolName == strL ("message") then
    (strL ("to notify you"), strL ("sent notification"))
  else (strL ("to use a tool"), strL ("completed"))

/-- The recognised footer header strings of `_parse_cognitive_log`. -/
def cogHeaders : List Str :=
  [strL ("cognitive log"), strL ("cognitive-log"), strL ("cognitive_log"),
   strL ("journal"), strL ("journal log"), strL ("journal-log")]

/-- The placeholder values discarded by `_parse_cognitive_log`. -/
def placeholderVals : List Str :=
  [strL ("-"), strL ("--"), strL ("—"), strL ("…"), strL ("n/a"), strL ("na")]

/-- Index of the first footer-header line (`head in (…)` after strip+lower). -/
def findHeaderIdx (lines : List Str) : Option Nat :=
  lines.findIdx? (fun ln => cogHeaders.contains (lower (pyStrip ln)))

/-- Parse one candidate bullet line (already stripped, starts with `-`):
the dash is stripped, the line split at the first `:`, and the entry is kept
only if the kind is allowed and the content passes the placeholder, length
and code-guardrail checks, in the source's order. -/
def parseBullet (raw : Str) : Option (Str × Str) :=
  let item := pyStrip (raw.dropWhile (fun c => c == '-'))
  if !(containsSub (strL (":")) item) then none
  else
    let k := item.takeWhile (fun c => !(c == ':'))
    let v := (item.dropWhile (fun c => !(c == ':'))).drop 1
    let typ := lower (pyStrip k)
    let content := pyStrip v
    if !(cognitiveKinds.contains typ) then none
    else if content.isEmpty then none
    else if placeholderVals.contains (lower (pyStrip content)) then none
    else if (pyStrip content).length < 8 then none
    else if containsSub (strL ("`")) content || containsSub (strL ("()")) content ||
        startsWith (strL ("_")) (pyStrip content) then none
    else some (typ, shortS content 420)

/-- The bullet-scanning loop of `_parse_cognitive_log` over
`lines[start:start+40]`: a blank or non-dash line ends the scan once at
least one entry was collected (and is skipped before that); at most 12
entries are collected. -/
def bulletsLoop : List Str → List (Str × Str) → List (Str × Str)
  | [], out => out
  | ln :: rest, out =>
    let raw := pyStrip ln
    if raw.isEmpty then
      if out.isEmpty then bulletsLoop rest out else out
    else if !(startsWith (strL ("-")) raw) then
      if out.isEmpty then bulletsLoop rest out else out
    else
      match parseBullet raw with
      | none => bulletsLoop rest out
      | some kv =>
        let out2 := out ++ [kv]
        if out2.length ≥ 12 then out2 else bulletsLoop rest out2

/-- `_parse_cognitive_log(text)`: find an explicitly authored footer header
and parse the bullets after it.  Returns `[]` when the text is blank or no
header line is present. -/
def parseCognitiveLog (text : Str) : List (Str × Str) :=
  if (pyStrip text).isEmpty then []
  else
    let lines := (splitlines text).map rstrip
    match findHeaderIdx lines with
    | none => []
    | some i => bulletsLoop ((lines.drop (i + 1)).take 40) []

/-- The automated-prompt check of `_derive_journal_from_summary`:
`'[cron:' in req_low or req_low.startswith('tar task') or
req_low.startswith('research task')`. -/
def automatedB (userRequest : Str) : Bool :=
  let reqLow := lower userRequest
  containsSub (strL ("[cron:")) reqLow ||
    startsWith (strL ("tar task")) reqLow ||
    startsWith (strL ("research task")) reqLow

/-- `re.search(marker + r"\s*(.+)", text, re.I)` for a literal `marker`
(given lowercase): find the first occurrence (case-insensitively) followed,
after optional whitespace, by a non-empty rest-of-line, and return that
captured rest-of-line. -/
def reLineCapture (marker : Str) : Str → Option Str
  | [] => none
  | c :: rest =>
    if marker.isPrefixOf (lower (c :: rest)) then
      let cap := (((c :: rest).drop marker.length).dropWhile pySpace).takeWhile
        (fun ch => !(ch == '\n'))
      if cap.isEmpty then reLineCapture marker rest else some cap
    else reLineCapture marker rest

/-- `re.sub(r"^\d+\.\s*", '', ln)`: drop a leading `digits.` enumeration
marker (and following whitespace) when present. -/
def stripEnum (s : Str) : Str :=
  let ds := s.takeWhile Char.isDigit
  if ds.isEmpty then s
  else
    match s.drop ds.length with
    | '.' :: r2 => r2.dropWhile pySpace
    | _ => s

/-- `re.sub(r"\*\*(.*?)\*\*", r"\1", s)` (fuelled): remove each leftmost
shortest `**…**` pair, keeping the inner text. -/
def unboldAux : Nat → Str → Str
  | 0, s => s
  | n + 1, s =>
    match findSubIdx (strL ("**")) s with
    | none => s
    | some i =>
      let rest := s.drop (i + 2)
      match findSubIdx (strL ("**")) rest with
      | none => s
      | some j => s.take i ++ rest.take j ++ unboldAux n (rest.drop (j + 2))

/-- See `unboldAux`. -/
def unbold (s : Str) : Str := unboldAux s.length s

/-- Count of `thought` entries (`sum(1 for t,_ in out if t=='thought')`). -/
def countThoughts (out : List (Str × Str)) : Nat :=
  out.countP (fun kv => kv.1 == strL ("thought"))

/-- The key-insights loop of `_derive_journal_from_summary`: numbered lines
become `thought` entries (enumeration and bold markers removed) until three
thoughts exist; other lines end the loop once three entries exist overall. -/
def insightsLoop : List Str → List (Str × Str) → List (Str × Str)
  | [], out => out
  | ln :: rest, out =>
    let l := pyStrip ln
    if l.isEmpty || !(match l with | c :: _ => c.isDigit | [] => false) then
      if out.length ≥ 3 then out else insightsLoop rest out
    else
      let out2 := out ++ [(strL ("thought"), shortS (unbold (stripEnum l)) 420)]
      if countThoughts out2 ≥ 3 then out2 else insightsLoop rest out2

/-- The dashboard-changes loop: the first stripped line starting with `- `
yields a `plan` entry. -/
def firstDashPlan : List Str → Option Str
  | [] => none
  | ln :: rest =>
    let l := pyStrip ln
    if startsWith (strL ("- ")) l then some (pyStrip (l.drop 2))
    else firstDashPlan rest

/-- TAR stage 1: the `**Paper selected:**` match appends a `thought`. -/
def tarPaperSel (text : Str) : List (Str × Str) :=
  match reLineCapture (strL ("**paper selected:**")) text with
  | some g => [(strL ("thought"), shortS (strL ("TAR ran: ") ++ pyStrip g) 420)]
  | none => []

/-- TAR stage 2: the key-insights block appends up to three `thought`s. -/
def tarInsights (text low : Str) (out : List (Str × Str)) : List (Str × Str) :=
  if containsSub (strL ("key insights extracted")) low then
    insightsLoop
      (splitlines (splitAfterFirst (strL ("**Key insights extracted:**")) text)) out
  else out

/-- TAR stage 3: the `**Pitch:**` match appends a `decision`. -/
def tarPitch (text : Str) (out : List (Str × Str)) : List (Str × Str) :=
  match reLineCapture (strL ("**pitch:**")) text with
  | some g => out ++ [(strL ("decision"), shortS (pyStrip g) 420)]
  | none => out

/-- TAR stage 4: the dashboard-changes block appends a `plan`. -/
def tarDash (text : Str) (out : List (Str × Str)) : List (Str × Str) :=
  if containsSub (strL ("**Dashboard changes suggested:**")) text then
    match firstDashPlan
        (splitlines (splitAfterFirst (strL ("**Dashboard changes suggested:**")) text)) with
    | some p => out ++ [(strL ("plan"), shortS p 420)]
    | none => out
  else out

/-- TAR stage 5: the novelty hint appends a `risk`. -/
def tarRisk (low : Str) (out : List (Str × Str)) : List (Str × Str) :=
  if containsSub (strL ("deeper insights needed")) low then
    out ++ [(strL ("risk"),
      shortS (strL ("Early-stage note: deeper stages still needed before pitching/acting.")) 420)]
  else out

/-- The TAR-summary branch of `_derive_journal_from_summary`: the five
sequential appends above. -/
def tarJournal (text low : Str) : List (Str × Str) :=
  tarRisk low (tarDash text (tarPitch text (tarInsights text low (tarPaperSel text))))

/-- `_derive_journal_from_summary(text, user_request)`: grounded fallback
derivation, attempted only for automated prompts; TAR summaries are parsed
structurally, RAPP/research tasks get a fixed note; capped to 6 entries. -/
def deriveJournal (text userRequest : Str) : List (Str × Str) :=
  if (pyStrip text).isEmpty then []
  else
    let low := lower text
    if !(automatedB userRequest) then []
    else
      let out :=
        if containsSub (strL ("tar summary")) low then tarJournal text low
        else if containsSub (strL ("rapp")) low || containsSub (strL ("research task")) low then
          [(strL ("thought"),
            shortS (strL ("Automated research run completed; see activity detail for sources and changes.")) 420)]
        else []
      out.take 6

/-- `' -m '`-message extraction inside `_worklog_from_tool_calls`. -/
def gitCommitMsg (one : Str) : Option Str :=
  if containsSub (strL (" -m ")) one then
    some ((((pyStrip (splitAfterFirst (strL (" -m ")) one)).dropWhile
        (fun c => c == '"')).reverse.dropWhile (fun c => c == '"')).reverse
      |> fun t => ((t.dropWhile (fun c => c == '\'')).reverse.dropWhile
        (fun c => c == '\'')).reverse)
  else none

/-- A tool call accumulated in the turn (`{'name': …, 'arguments': …}`). -/
structure ToolCall where
  name : Str
  arguments : List (Str × Str)
deriving DecidableEq

/-- The worklog line derived from one tool call, if any: only `exec` calls
whose normalised command matches one of the ordered patterns produce a line. -/
def worklogCmdLine (tc : ToolCall) : Option Str :=
  if !(pyStrip tc.name == strL ("exec")) then none
  else
    let cmd := argGetD tc.arguments (strL ("command")) []
    let one := joinSep (strL (" ")) (words cmd)
    let low := lower one
    if containsSub (strL ("git commit")) low then
      some (strL ("Git: commit") ++
        (match gitCommitMsg one with
         | some m => strL (" — ") ++ m
         | none => []))
    else if containsSub (strL ("git push")) low then some (strL ("Git: push"))
    else if containsSub (strL ("systemctl restart")) low then
      some (strL ("Service: restarted"))
    else if containsSub (strL ("systemctl status")) low then
      some (strL ("Service: status checked"))
    else none

/-- First loop of `_worklog_from_tool_calls`: collect command-derived lines,
stopping once three are collected. -/
def worklogExecLoop : List ToolCall → List Str → List Str
  | [], out => out
  | tc :: rest, out =>
    match worklogCmdLine tc with
    | none => worklogExecLoop rest out
    | some line =>
      let out2 := out ++ [line]
      if out2.length ≥ 3 then out2 else worklogExecLoop rest out2

/-- Second loop of `_worklog_from_tool_calls`: the first `edit`/`write` call
with a truthy `path` (or `file_path`) yields a `File updated:` line. -/
def fileEditLine : List ToolCall → Option Str
  | [] => none
  | tc :: rest =>
    let name := pyStrip tc.name
    if name == strL ("edit") || name == strL ("write") then
      match pyTruthy ((pyTruthy (argGet tc.arguments (strL ("path")))).orElse
          (fun _ => argGet tc.arguments (strL ("file_path")))) with
      | some p => some (strL ("File updated: ") ++ p)
      | none => fileEditLine rest
    else fileEditLine rest

/-- `_worklog_from_tool_calls(tool_calls)`: command lines, then at most one
file-edit line when fewer than three were found, deduplicated (first
occurrence wins) and capped at three. -/
def worklogFromToolCalls (toolCalls : List ToolCall) : List Str :=
  let out := worklogExecLoop toolCalls []
  let out2 :=
    if out.length < 3 then
      out ++ (fileEditLine toolCalls).toList
    else out
  (dedupKeepFirst out2 []).take 3

/-!
## TurnAccumulator and build_events
-/

/-- A filtered tool result stored in the accumulator. -/
structure ToolResultEntry where
  tool : Str
  out : Str
deriving DecidableEq

/-- The `TurnAccumulator` state (one per tailed file). -/
structure TurnState where
  user_text : Str
  user_ts : Str
  tool_calls : List ToolCall
  tool_results : List ToolResultEntry
  thinking : List Str
  response_text : Str
deriving DecidableEq

/-- `TurnAccumulator.reset()`: a fresh empty turn. -/
def TurnState.reset : TurnState :=
  ⟨[], [], [], [], [], []⟩

/-- `TurnAccumulator.add_user(ts_iso, text)`: hard reset, then store the new
user timestamp and stripped user text. -/
def TurnState.add_user (_s : TurnState) (tsIso : Str) (text : Str) : TurnState :=
  { TurnState.reset with user_ts := tsIso, user_text := pyStrip text }

/-- `TurnAccumulator.add_tool_call(name, args)`. -/
def TurnState.add_tool_call (s : TurnState) (name : Str)
    (args : List (Str × Str)) : TurnState :=
  { s with tool_calls := s.tool_calls ++ [⟨name, args⟩] }

/-- `TurnAccumulator.add_thinking(snippets)`: excerpts are stored, nothing
else. -/
def TurnState.add_thinking (s : TurnState) (snippets : List Str) : TurnState :=
  { s with thinking := s.thinking ++ snippets }

/-- `TurnAccumulator.add_response(text)`. -/
def TurnState.add_response (s : TurnState) (text : Str) : TurnState :=
  if text.isEmpty then s else { s with response_text := text }

/-- `re.sub(r"```.*?```", "[code omitted]", s, flags=re.S)` (fuelled):
replace each leftmost shortest triple-backtick span. -/
def stripCodeAux : Nat → Str → Str
  | 0, s => s
  | n + 1, s =>
    match findSubIdx (strL ("```")) s with
    | none => s
    | some i =>
      let rest := s.drop (i + 3)
      match findSubIdx (strL ("```")) rest with
      | none => s
      | some j =>
        s.take i ++ strL ("[code omitted]") ++ stripCodeAux n (rest.drop (j + 3))

/-- See `stripCodeAux`. -/
def stripCodeBlocks (s : Str) : Str := stripCodeAux s.length s

/-- The allow-listed leading phrases for highlight bullets. -/
def allowHighlight : List Str :=
  [strL ("fixed"), strL ("added"), strL ("changed"), strL ("deployed"),
   strL ("committed"), strL ("pushed"), strL ("restarted"), strL ("result"),
   strL ("root cause"), strL ("next"), strL ("note"), strL ("risk"),
   strL ("decision")]

/-- The highlight-collection loop of `build_events` over the first 60
non-blank stripped response lines: dash bullets with an allow-listed leading
phrase and no code-ish content, capped at three. -/
def highlightsLoop : List Str → List Str → List Str
  | [], acc => acc
  | ln :: rest, acc =>
    if !(startsWith (strL ("- ")) ln) then highlightsLoop rest acc
    else
      let item := pyStrip (ln.drop 2)
      let low := lower item
      if containsSub (strL ("`")) item then highlightsLoop rest acc
      else if containsSub (strL ("(")) item && containsSub (strL (")")) item &&
          (item.takeWhile (fun c => !(c == '('))).any Char.isAlphanum then
        highlightsLoop rest acc
      else if startsWith (strL ("_")) item || containsSub (strL ("()")) item ||
          (item.filter (fun c => c == '_')).length ≥ 2 then
        highlightsLoop rest acc
      else if !(allowHighlight.any (fun p => startsWith p low)) then
        highlightsLoop rest acc
      else
        let acc2 := acc ++ [shortS item 140]
        if acc2.length ≥ 3 then acc2 else highlightsLoop rest acc2

/-- `re.split(r"(?<=[.!?])\s+", flat)` (fuelled): cut after a sentence-ending
punctuation character followed by whitespace, consuming the whitespace run. -/
def sentSplitAux : Nat → Str → Str → List Str
  | 0, acc, _ => [acc.reverse]
  | _, acc, [] => [acc.reverse]
  | n + 1, acc, c :: rest =>
    if pySpace c &&
        (match acc with
         | p :: _ => p == '.' || p == '!' || p == '?'
         | [] => false) then
      acc.reverse :: sentSplitAux n [] (rest.dropWhile pySpace)
    else sentSplitAux n (c :: acc) rest

/-- See `sentSplitAux`. -/
def sentSplit (s : Str) : List Str := sentSplitAux s.length [] s

/-- The `Actions` per-tool lines of `build_events`: one `- name: did` line
per distinct truthy tool name, stopping once four names were listed. -/
def actionLines : List ToolCall → List Str → List Str
  | [], _ => []
  | tc :: rest, seen =>
    if tc.name.isEmpty || seen.contains tc.name then actionLines rest seen
    else
      let seen2 := tc.name :: seen
      (strL ("- ") ++ tc.name ++ strL (": ") ++ (toolPurpose tc.name tc.arguments).2) ::
        (if seen2.length ≥ 4 then [] else actionLines rest seen2)

/-- The final event batch assembly at the end of `build_events`: cognitive
entries (capped at 12) as `(kind, content, Journal detail)`, then worklog
lines (capped at 3) as `worklog` events, then the single unconditional
`activity` event. -/
def mkEvents (cog : List (Str × Str)) (wl : List Str)
    (summary detailText : Str) : List (Str × Str × Str) :=
  (cog.take 12).map
      (fun kv => (kv.1, kv.2, strL ("Journal\n- ") ++ kv.1 ++ strL (": ") ++ kv.2)) ++
    (wl.take 3).map
      (fun w => (strL ("worklog"), w, strL ("Worklog\n- ") ++ w)) ++
    [(strL ("activity"), summary, detailText)]

/-- The cleaned user request of the current turn, with the media placeholder
for empty text (first lines of `build_events`). -/
def userCleanOf (t : TurnState) : Str :=
  let u := stripLeadingTimestamp (pyStrip t.user_text)
  if u.isEmpty then strL ("[no text — possibly media-only message]") else u

/-- The cognitive entries of a completed turn (the `cog` variable of
`build_events`): parsed from the explicit footer of the code-block-stripped
response text, falling back to the automated-run derivation when the footer
parse is empty; `[]` when there is no response text. -/
def cogOf (t : TurnState) : List (Str × Str) :=
  if t.response_text.isEmpty then []
  else
    let rt := stripCodeBlocks t.response_text
    let cog0 := parseCognitiveLog rt
    if cog0.isEmpty then deriveJournal rt (userCleanOf t) else cog0

/-- `TurnAccumulator.build_events()`: derive the ordered event batch of a
completed turn.  Follows the source line by line: request section, actions
section, notable outputs, response section (code blocks removed, cognitive
footer parsed with automated-run fallback, highlights and a two-sentence
excerpt), then `mkEvents`. -/
def buildEvents (t : TurnState) : List (Str × Str × Str) :=
  let user_clean := userCleanOf t
  let topic := topicSummary user_clean
  let summary := if topic.isEmpty then strL ("Activity") else topic
  let lines0 : List Str := [strL ("Request"), strL ("- ") ++ shortS user_clean 1600]
  let lines1 :=
    if !(t.tool_calls.isEmpty) then
      let toolNames := (t.tool_calls.map (·.name)).filter (fun n => !(n.isEmpty))
      let uniq := dedupKeepFirst toolNames []
      let l1 := lines0 ++ [[], strL ("Actions")]
      let l2 :=
        if !(uniq.isEmpty) then
          l1 ++ [strL ("- Tools used: ") ++ joinSep (strL (", ")) (uniq.take 6) ++
            (if uniq.length > 6 then strL ("…") else [])]
        else l1
      l2 ++ actionLines t.tool_calls []
    else lines0
  let lines2 :=
    if !(t.tool_results.isEmpty) then
      let kept := t.tool_results.filter (fun tr => !(tr.out.isEmpty))
      if !(kept.isEmpty) then
        lines1 ++ [[], strL ("Notable outputs")] ++
          (kept.take 3).map (fun tr => strL ("- ") ++ tr.out)
      else lines1
    else lines1
  let cog := cogOf t
  let respData : List Str × List Str :=
    if t.response_text.isEmpty then ([], [])
    else
      let rt := stripCodeBlocks t.response_text
      let rtLines := ((splitlines rt).map pyStrip).filter (fun l => !(l.isEmpty))
      let highlights := highlightsLoop (rtLines.take 60) []
      let flat := joinSep (strL (" ")) (words rt)
      let parts := sentSplit flat
      let excerpt :=
        if parts.isEmpty then flat
        else pyStrip (joinSep (strL (" ")) (parts.take 2))
      (highlights, [[], strL ("Response"), strL ("- ") ++ shortS excerpt 700])
  let highlights := respData.1
  let lines3 := lines2 ++ respData.2
  let lines4 :=
    if highlights.isEmpty then lines3
    else lines3 ++ [[], strL ("Highlights")] ++
      (highlights.take 3).map (fun h => strL ("- ") ++ h)
  let detailText := pyStrip (joinSep (strL ("\n")) lines4)
  mkEvents cog (worklogFromToolCalls t.tool_calls) summary detailText

/-- "The response text contains no explicit Cognitive log / Journal footer":
after code-block removal, no line passes the header test of
`_parse_cognitive_log`. -/
def NoFooter (text : Str) : Prop :=
  ∀ ln ∈ (splitlines (stripCodeBlocks text)).map rstrip,
    cogHeaders.contains (lower (pyStrip ln)) = false

instance (text : Str) : Decidable (NoFooter text) := by
  unfold NoFooter
  infer_instance

/-- The event kinds `_derive_journal_from_summary` can produce. -/
def journalKinds : List Str :=
  [strL ("thought"), strL ("decision"), strL ("plan"), strL ("risk")]

/-- The spec's §8 scenario turn: user asks to restart the service, one
`exec` tool call ran `systemctl restart foo`, and the response is `resp`. -/
def restartScenario (resp : Str) : TurnState :=
  ⟨strL ("please restart the service"), strL ("t0"),
   [⟨strL ("exec"), [(strL ("command"), strL ("systemctl restart foo"))]⟩],
   [], [], resp⟩

/-!
## Theorems

One theorem per claim (C1–C10), preceded by shared helper lemmas.
-/

/-- C7: processing a new user record resets the accumulator to a fresh empty
turn — the result is independent of the previous state, and every
accumulated field (tool calls, tool results, thinking excerpts, response
text) is cleared before the new user text (stripped) and timestamp are
stored. -/
theorem add_user_always_resets (s₁ s₂ : TurnState) (ts text : Str) :
    TurnState.add_user s₁ ts text = TurnState.add_user s₂ ts text ∧
    (TurnState.add_user s₁ ts text).tool_calls = [] ∧
    (TurnState.add_user s₁ ts text).tool_results = [] ∧
    (TurnState.add_user s₁ ts text).thinking = [] ∧
    (TurnState.add_user s₁ ts text).response_text = [] ∧
    (TurnState.add_user s₁ ts text).user_text = pyStrip text ∧
    (TurnState.add_user s₁ ts text).user_ts = ts :=
  ⟨rfl, rfl, rfl, rfl, rfl, rfl, rfl⟩

/-- C10: two accumulated turns that agree on everything except their
thinking excerpts produce identical event batches — `build_events` never
reads the `thinking` field. -/
theorem build_events_independent_of_thinking (a b : TurnState)
    (hu : a.user_text = b.user_text) (hts : a.user_ts = b.user_ts)
    (hc : a.tool_calls = b.tool_calls) (hr : a.tool_results = b.tool_results)
    (hresp : a.response_text = b.response_text) :
    buildEvents a = buildEvents b := by
  cases a
  cases b
  dsimp only at hu hts hc hr hresp
  subst hu hts hc hr hresp
  rfl

/-- Witness for C10: a turn with a thinking excerpt and the same turn
without it classify identically. -/
theorem build_events_independent_of_thinking_check :
    buildEvents ⟨strL ("hi"), strL ("t"), [], [], [strL ("private reasoning")], strL ("Done.")⟩ =
      buildEvents ⟨strL ("hi"), strL ("t"), [], [], [], strL ("Done.")⟩ :=
  build_events_independent_of_thinking _ _ rfl rfl rfl rfl rfl

/-- C8: when the file's current size is strictly smaller than the stored
offset the pass restarts from offset zero (re-reading from the start);
otherwise the stored offset is used unchanged. -/
theorem truncation_resets_offset (content : Str) (lastPos : Nat) :
    (content.length < lastPos →
      resolveOffset lastPos content.length = 0 ∧
      tailPass content lastPos = tailNewLines content 0 500) ∧
    (lastPos ≤ content.length →
      resolveOffset lastPos content.length = lastPos ∧
      tailPass content lastPos = tailNewLines content lastPos 500) := by
  constructor
  · intro h
    have h0 : resolveOffset lastPos content.length = 0 := by
      simp [resolveOffset, h]
    exact ⟨h0, by simp [tailPass, h0]⟩
  · intro h
    have h0 : resolveOffset lastPos content.length = lastPos := by
      simp [resolveOffset, Nat.not_lt.mpr h]
    exact ⟨h0, by simp [tailPass, h0]⟩

/-- Witness for C8: a 4-byte file with stored offset 10 restarts at 0; with
stored offset 2 it resumes at 2. -/
theorem truncation_resets_offset_check :
    (resolveOffset 10 (strL ("ab\nc")).length = 0 ∧
      tailPass (strL ("ab\nc")) 10 = tailNewLines (strL ("ab\nc")) 0 500) ∧
    (resolveOffset 2 (strL ("ab\nc")).length = 2 ∧
      tailPass (strL ("ab\nc")) 2 = tailNewLines (strL ("ab\nc")) 2 500) :=
  ⟨(truncation_resets_offset (strL ("ab\nc")) 10).1 (by decide),
   (truncation_resets_offset (strL ("ab\nc")) 2).2 (by decide)⟩

/-- C1 (code bug): inside `append_sol` the durable append raises `TypeError`
(`append_event` has no `detail_text` parameter), and the surrounding
`try… except Exception: pass` swallows it: for every input, `append_sol`
returns normally with the event store unchanged — the persistence failure is
neither avoided nor surfaced to any caller. -/
theorem append_sol_swallows_append_failure (d : Dashboard) (db : EventStore)
    (typ content detailText agent tsShort tsIso : Str) :
    appendEventCallFromAppendSol db agent typ (content.take 200)
        (detailText.take 8000) tsIso = .error .typeError ∧
    ∃ d2, appendSol d db typ content detailText agent tsShort tsIso = .ok (d2, db) :=
  ⟨rfl, ⟨_, rfl⟩⟩

/-- C3 (code bug): tailing `"abc\ndef"` from offset 0 yields the incomplete
trailing line `"def"` (no terminating newline) in addition to the complete
line `"abc\n"`, and the recorded offset advances to 7, past the end of the
last complete line (4). -/
theorem tail_yields_partial_trailing_line :
    tailNewLines (strL ("abc\ndef")) 0 500 = [strL ("abc\n"), strL ("def")] ∧
    ¬ '\n' ∈ strL ("def") ∧
    (strL ("abc\n")).length = 4 ∧
    tailPassOffset (strL ("abc\ndef")) 0 = 7 := by
  decide

/-- Every entry returned by `parseBullet` carries an allowed cognitive kind
(the `typ not in allowed` guard). -/
theorem parseBullet_kind {raw : Str} {kv : Str × Str}
    (h : parseBullet raw = some kv) : cognitiveKinds.contains kv.1 = true := by
  simp only [parseBullet] at h
  split at h
  · cases h
  · split at h
    · cases h
    · split at h
      · cases h
      · split at h
        · cases h
        · split at h
          · cases h
          · split at h
            · cases h
            · cases h
              simp_all

/-- Every entry collected by the bullet loop is either carried over from the
accumulator or has an allowed cognitive kind. -/
theorem mem_bulletsLoop {lns : List Str} {out : List (Str × Str)} {kv : Str × Str}
    (h : kv ∈ bulletsLoop lns out) :
    kv ∈ out ∨ cognitiveKinds.contains kv.1 = true := by
  induction lns generalizing out with
  | nil => exact .inl h
  | cons ln rest ih =>
    simp only [bulletsLoop] at h
    split at h
    · split at h
      · exact ih h
      · exact .inl h
    · split at h
      · split at h
        · exact ih h
        · exact .inl h
      · split at h
        · exact ih h
        · rename_i kv2 hpb
          split at h
          · rcases List.mem_append.mp h with h' | h'
            · exact .inl h'
            · exact .inr (by rw [List.mem_singleton.mp h']; exact parseBullet_kind hpb)
          · rcases ih h with h' | h'
            · rcases List.mem_append.mp h' with h'' | h''
              · exact .inl h''
              · exact .inr (by rw [List.mem_singleton.mp h'']; exact parseBullet_kind hpb)
            · exact .inr h'

/-- Every entry of a parsed cognitive footer has an allowed cognitive kind. -/
theorem mem_parseCognitiveLog_kind {text : Str} {kv : Str × Str}
    (h : kv ∈ parseCognitiveLog text) : cognitiveKinds.contains kv.1 = true := by
  simp only [parseCognitiveLog] at h
  split at h
  · cases h
  · split at h
    · cases h
    · rcases mem_bulletsLoop h with h' | h'
      · cases h'
      · exact h'

/-- When no line of the text passes the header test, the footer parse is
empty. -/
theorem parseCognitiveLog_of_no_header {text : Str}
    (h : ∀ ln ∈ (splitlines text).map rstrip,
      cogHeaders.contains (lower (pyStrip ln)) = false) :
    parseCognitiveLog text = [] := by
  simp only [parseCognitiveLog]
  split
  · rfl
  · have hn : findHeaderIdx ((splitlines text).map rstrip) = none := by
      simp only [findHeaderIdx]
      exact List.findIdx?_eq_none_iff.mpr h
    rw [hn]

/-- A non-automated user request disables the journal fallback entirely. -/
theorem deriveJournal_of_not_automated {text u : Str} (h : automatedB u = false) :
    deriveJournal text u = [] := by
  simp only [deriveJournal]
  split
  · rfl
  · simp [h]

/-- The insights loop only ever appends `thought` entries. -/
theorem mem_insightsLoop {lns : List Str} {out : List (Str × Str)} {kv : Str × Str}
    (h : kv ∈ insightsLoop lns out) :
    kv ∈ out ∨ kv.1 = strL ("thought") := by
  induction lns generalizing out with
  | nil => exact .inl h
  | cons ln rest ih =>
    simp only [insightsLoop] at h
    split at h
    · split at h
      · exact .inl h
      · exact ih h
    · split at h
      · rcases List.mem_append.mp h with h' | h'
        · exact .inl h'
        · exact .inr (congrArg Prod.fst (List.mem_singleton.mp h'))
      · rcases ih h with h' | h'
        · rcases List.mem_append.mp h' with h'' | h''
          · exact .inl h''
          · exact .inr (congrArg Prod.fst (List.mem_singleton.mp h''))
        · exact .inr h'

/-- All TAR-branch entries have one of the journal kinds. -/
theorem mem_tarJournal_kind {text low : Str} {kv : Str × Str}
    (h : kv ∈ tarJournal text low) : kv.1 ∈ journalKinds := by
  have h1 : ∀ x ∈ tarPaperSel text, x.1 ∈ journalKinds := by
    intro x hx
    simp only [tarPaperSel] at hx
    split at hx
    · rw [congrArg Prod.fst (List.mem_singleton.mp hx)]
      simp [journalKinds]
    · cases hx
  have h2 : ∀ x ∈ tarInsights text low (tarPaperSel text), x.1 ∈ journalKinds := by
    intro x hx
    simp only [tarInsights] at hx
    split at hx
    · rcases mem_insightsLoop hx with h' | h'
      · exact h1 x h'
      · rw [h']; simp [journalKinds]
    · exact h1 x hx
  have h3 : ∀ x ∈ tarPitch text (tarInsights text low (tarPaperSel text)),
      x.1 ∈ journalKinds := by
    intro x hx
    simp only [tarPitch] at hx
    split at hx
    · rcases List.mem_append.mp hx with h' | h'
      · exact h2 x h'
      · rw [congrArg Prod.fst (List.mem_singleton.mp h')]
        simp [journalKinds]
    · exact h2 x hx
  have h4 : ∀ x ∈ tarDash text (tarPitch text (tarInsights text low (tarPaperSel text))),
      x.1 ∈ journalKinds := by
    intro x hx
    simp only [tarDash] at hx
    split at hx
    · split at hx
      · rcases List.mem_append.mp hx with h' | h'
        · exact h3 x h'
        · rw [congrArg Prod.fst (List.mem_singleton.mp h')]
          simp [journalKinds]
      · exact h3 x hx
    · exact h3 x hx
  simp only [tarJournal, tarRisk] at h
  split at h
  · rcases List.mem_append.mp h with h' | h'
    · exact h4 kv h'
    · rw [congrArg Prod.fst (List.mem_singleton.mp h')]
      simp [journalKinds]
  · exact h4 kv h

/-- Every entry of the journal fallback has one of the journal kinds. -/
theorem mem_deriveJournal_kind {text u : Str} {kv : Str × Str}
    (h : kv ∈ deriveJournal text u) : kv.1 ∈ journalKinds := by
  simp only [deriveJournal] at h
  split at h
  · cases h
  · split at h
    · cases h
    · have h' := List.mem_of_mem_take h
      split at h'
      · exact mem_tarJournal_kind h'
      · split at h'
        · rw [congrArg Prod.fst (List.mem_singleton.mp h')]
          simp [journalKinds]
        · cases h'

/-- Every cognitive entry of a turn has a cognitive or journal kind. -/
theorem mem_cogOf_kind {t : TurnState} {kv : Str × Str} (h : kv ∈ cogOf t) :
    cognitiveKinds.contains kv.1 = true ∨ kv.1 ∈ journalKinds := by
  simp only [cogOf] at h
  split at h
  · cases h
  · split at h
    · exact .inr (mem_deriveJournal_kind h)
    · exact .inl (mem_parseCognitiveLog_kind h)

/-- An allowed cognitive kind is neither `activity` nor `worklog`. -/
theorem cognitive_kind_cases {k : Str} (h : cognitiveKinds.contains k = true) :
    (k == strL ("activity")) = false ∧ (k == strL ("worklog")) = false := by
  have h' : k ∈ cognitiveKinds := by simpa [List.contains] using h
  fin_cases h' <;> decide

/-- A journal kind is neither `activity` nor `worklog`. -/
theorem journal_kind_cases {k : Str} (h : k ∈ journalKinds) :
    (k == strL ("activity")) = false ∧ (k == strL ("worklog")) = false := by
  fin_cases h <;> decide

/-- A cognitive entry's kind is neither `activity` nor `worklog`. -/
theorem cogOf_kind_ne {t : TurnState} {kv : Str × Str} (h : kv ∈ cogOf t) :
    (kv.1 == strL ("activity")) = false ∧ (kv.1 == strL ("worklog")) = false := by
  rcases mem_cogOf_kind h with h' | h'
  · exact cognitive_kind_cases h'
  · exact journal_kind_cases h'

/-- `build_events` always ends by assembling `mkEvents` from the turn's
cognitive entries and worklog lines. -/
theorem buildEvents_shape (t : TurnState) :
    ∃ s d, buildEvents t = mkEvents (cogOf t) (worklogFromToolCalls t.tool_calls) s d :=
  ⟨_, _, rfl⟩

/-- Filtering a batch by a kind predicate that rejects `worklog`,
`activity`, and every cognitive entry's kind yields nothing. -/
theorem mkEvents_filter_kind (p : Str → Bool) (cog : List (Str × Str))
    (wl : List Str) (s d : Str)
    (hpW : p (strL ("worklog")) = false) (hpA : p (strL ("activity")) = false)
    (hc : ∀ kv ∈ cog, p kv.1 = false) :
    (mkEvents cog wl s d).filter (fun e => p e.1) = [] := by
  simp only [mkEvents, List.filter_append]
  have h1 : List.filter (fun e => p e.1) ((cog.take 12).map
      (fun kv => (kv.1, kv.2, strL ("Journal\n- ") ++ kv.1 ++ strL (": ") ++ kv.2))) = [] := by
    rw [List.filter_eq_nil_iff]
    intro a ha
    rcases List.mem_map.mp ha with ⟨kv, hkv, rfl⟩
    simp [hc kv (List.mem_of_mem_take hkv)]
  have h2 : List.filter (fun e => p e.1) ((wl.take 3).map
      (fun w => (strL ("worklog"), w, strL ("Worklog\n- ") ++ w))) = [] := by
    rw [List.filter_eq_nil_iff]
    intro a ha
    rcases List.mem_map.mp ha with ⟨w, hw, rfl⟩
    simp [hpW]
  have h3 : List.filter (fun e => p e.1) [(strL ("activity"), s, d)] = [] := by
    simp [List.filter, hpA]
  rw [h1, h2, h3]
  rfl

/-- With no cognitive entries, the batch holds no cognitive-kind event. -/
theorem filter_cognitive_mkEvents_nil (wl : List Str) (s d : Str) :
    (mkEvents [] wl s d).filter (fun e => cognitiveKinds.contains e.1) = [] := by
  refine mkEvents_filter_kind _ [] wl s d (by decide) (by decide) ?_
  intro kv hkv
  cases hkv

/-- When no cognitive entry has kind `worklog`, the worklog events of the
batch are exactly the mapped worklog lines. -/
theorem mkEvents_filter_worklog (cog : List (Str × Str)) (wl : List Str) (s d : Str)
    (hc : ∀ kv ∈ cog, (kv.1 == strL ("worklog")) = false) :
    (mkEvents cog wl s d).filter (fun e => e.1 == strL ("worklog")) =
      (wl.take 3).map (fun w => (strL ("worklog"), w, strL ("Worklog\n- ") ++ w)) := by
  simp only [mkEvents, List.filter_append]
  have h1 : List.filter (fun e => e.1 == strL ("worklog")) ((cog.take 12).map
      (fun kv => (kv.1, kv.2, strL ("Journal\n- ") ++ kv.1 ++ strL (": ") ++ kv.2))) = [] := by
    rw [List.filter_eq_nil_iff]
    intro a ha
    rcases List.mem_map.mp ha with ⟨kv, hkv, rfl⟩
    simp [hc kv (List.mem_of_mem_take hkv)]
  have h2 : List.filter (fun e => e.1 == strL ("worklog")) ((wl.take 3).map
      (fun w => (strL ("worklog"), w, strL ("Worklog\n- ") ++ w))) =
      (wl.take 3).map (fun w => (strL ("worklog"), w, strL ("Worklog\n- ") ++ w)) := by
    rw [List.filter_eq_self]
    intro a ha
    rcases List.mem_map.mp ha with ⟨w, hw, rfl⟩
    have hb : (strL ("worklog") == strL ("worklog")) = true := by decide
    simp [hb]
  have h3 : List.filter (fun e => e.1 == strL ("worklog"))
      [((strL ("activity") : Str), s, d)] = [] := by
    have hb : (strL ("activity") == strL ("worklog")) = false := by decide
    simp [List.filter_cons, hb]
  rw [h1, h2, h3]
  simp

/-- When no cognitive entry has kind `activity`, the batch holds exactly one
activity event. -/
theorem mkEvents_countP_activity (cog : List (Str × Str)) (wl : List Str) (s d : Str)
    (hc : ∀ kv ∈ cog, (kv.1 == strL ("activity")) = false) :
    (mkEvents cog wl s d).countP (fun e => e.1 == strL ("activity")) = 1 := by
  simp only [mkEvents, List.countP_append]
  have h1 : List.countP (fun e => e.1 == strL ("activity")) ((cog.take 12).map
      (fun kv => (kv.1, kv.2, strL ("Journal\n- ") ++ kv.1 ++ strL (": ") ++ kv.2))) = 0 := by
    rw [List.countP_eq_zero]
    intro a ha
    rcases List.mem_map.mp ha with ⟨kv, hkv, rfl⟩
    simp [hc kv (List.mem_of_mem_take hkv)]
  have h2 : List.countP (fun e => e.1 == strL ("activity")) ((wl.take 3).map
      (fun w => (strL ("worklog"), w, strL ("Worklog\n- ") ++ w))) = 0 := by
    rw [List.countP_eq_zero]
    intro a ha
    rcases List.mem_map.mp ha with ⟨w, hw, rfl⟩
    have hb : (strL ("worklog") == strL ("activity")) = false := by decide
    simp [hb]
  have h3 : List.countP (fun e => e.1 == strL ("activity"))
      [((strL ("activity") : Str), s, d)] = 1 := by
    have hb : (strL ("activity") == strL ("activity")) = true := by decide
    simp [List.countP_cons, hb]
  rw [h1, h2, h3]

/-- C4: a turn whose response text contains no explicit Cognitive log /
Journal footer and whose user text matches no automated-run marker yields
zero cognitive-kind events, whatever tool calls or thinking excerpts the
turn accumulated. -/
theorem no_cognition_without_footer (t : TurnState)
    (hf : NoFooter t.response_text)
    (ha : automatedB (userCleanOf t) = false) :
    (buildEvents t).filter (fun e => cognitiveKinds.contains e.1) = [] := by
  obtain ⟨s, d, hbe⟩ := buildEvents_shape t
  have hcog : cogOf t = [] := by
    simp only [cogOf]
    split
    · rfl
    · have hp : parseCognitiveLog (stripCodeBlocks t.response_text) = [] :=
        parseCognitiveLog_of_no_header hf
      simp [hp, deriveJournal_of_not_automated ha]
  rw [hbe, hcog]
  exact filter_cognitive_mkEvents_nil _ _ _

/-- Witness for C4: a turn with a tool call, a thinking excerpt and a
footerless response classifies to zero cognitive events. -/
theorem no_cognition_without_footer_check :
    (buildEvents ⟨strL ("fix the bug"), strL ("t"),
        [⟨strL ("exec"), [(strL ("command"), strL ("git push"))]⟩], [],
        [strL ("let me think hard")], strL ("All done without drama.")⟩).filter
      (fun e => cognitiveKinds.contains e.1) = [] :=
  no_cognition_without_footer _ (by decide) (by decide)

/-- C6: every completed turn with non-empty response text yields exactly one
`activity`-kind event, however many cognitive or worklog events accompany
it. -/
theorem always_one_activity (t : TurnState) (h : t.response_text ≠ []) :
    (buildEvents t).countP (fun e => e.1 == strL ("activity")) = 1 := by
  obtain ⟨s, d, hbe⟩ := buildEvents_shape t
  rw [hbe]
  exact mkEvents_countP_activity _ _ _ _ (fun kv hkv => (cogOf_kind_ne hkv).1)

/-- Witness for C6: the scenario turn emits exactly one activity event. -/
theorem always_one_activity_check :
    (buildEvents ⟨strL ("fix the bug"), strL ("t"), [], [], [],
        strL ("All done without drama.")⟩).countP
      (fun e => e.1 == strL ("activity")) = 1 :=
  always_one_activity _ (by decide)

/-- C9: the restart scenario — user text "please restart the service", one
`exec` of `systemctl restart foo`, and a footerless response — yields
exactly one worklog event with content "Service: restarted", exactly one
activity event, and zero cognitive events. -/
theorem restart_scenario_events (resp : Str) (hf : NoFooter resp) :
    (buildEvents (restartScenario resp)).filter (fun e => e.1 == strL ("worklog")) =
      [(strL ("worklog"), strL ("Service: restarted"),
        strL ("Worklog\n- Service: restarted"))] ∧
    (buildEvents (restartScenario resp)).countP (fun e => e.1 == strL ("activity")) = 1 ∧
    (buildEvents (restartScenario resp)).filter (fun e => cognitiveKinds.contains e.1) = [] := by
  have hwl : worklogFromToolCalls (restartScenario resp).tool_calls =
      [strL ("Service: restarted")] := by rfl
  have hresp : (restartScenario resp).response_text = resp := rfl
  have hcog : cogOf (restartScenario resp) = [] := by
    simp only [cogOf, hresp]
    split
    · rfl
    · have hp : parseCognitiveLog (stripCodeBlocks resp) = [] :=
        parseCognitiveLog_of_no_header hf
      have ha : automatedB (userCleanOf (restartScenario resp)) = false := by rfl
      simp [hp, deriveJournal_of_not_automated ha]
  obtain ⟨s, d, hbe⟩ := buildEvents_shape (restartScenario resp)
  rw [hbe, hcog, hwl]
  refine ⟨?_, ?_, ?_⟩
  · rw [mkEvents_filter_worklog [] [strL ("Service: restarted")] s d
      (fun kv hkv => by cases hkv)]
    decide
  · exact mkEvents_countP_activity _ _ _ _ (fun kv hkv => by cases hkv)
  · exact filter_cognitive_mkEvents_nil _ _ _

/-- Witness for C9: the scenario with response "Done. Restarted foo.". -/
theorem restart_scenario_events_check :
    (buildEvents (restartScenario (strL ("Done. Restarted foo.")))).filter
        (fun e => e.1 == strL ("worklog")) =
      [(strL ("worklog"), strL ("Service: restarted"),
        strL ("Worklog\n- Service: restarted"))] ∧
    (buildEvents (restartScenario (strL ("Done. Restarted foo.")))).countP
        (fun e => e.1 == strL ("activity")) = 1 ∧
    (buildEvents (restartScenario (strL ("Done. Restarted foo.")))).filter
        (fun e => cognitiveKinds.contains e.1) = [] :=
  restart_scenario_events _ (by decide)

/-- A character that is neither `\n` nor `\r` is pushed onto the current
line. -/
theorem splitlinesCore_cons_other {c : Char} (h1 : (c == '\n') = false)
    (h2 : (c == '\r') = false) (rest acc : Str) (b : Bool) :
    splitlinesCore (c :: rest) acc b = splitlinesCore rest (c :: acc) false := by
  simp [splitlinesCore, h1, h2]

/-- A break-free string is a single line. -/
theorem splitlinesCore_no_nl (a : Str) (h : ∀ c ∈ a, c ≠ '\n' ∧ c ≠ '\r') :
    ∀ (acc : Str) (b : Bool), splitlinesCore a acc b =
      if (acc.reverse ++ a).isEmpty then [] else [acc.reverse ++ a] := by
  induction a with
  | nil => intro acc b; cases acc <;> simp [splitlinesCore]
  | cons c t ih =>
    intro acc b
    have hc := h c (List.mem_cons_self c t)
    rw [splitlinesCore_cons_other (beq_eq_false_iff_ne.mpr hc.1)
      (beq_eq_false_iff_ne.mpr hc.2) t acc b]
    rw [ih (fun x hx => h x (List.mem_cons_of_mem c hx)) (c :: acc) false]
    simp

/-- A `\n` after a break-free prefix cuts exactly there. -/
theorem splitlinesCore_break (a : Str) (h : ∀ c ∈ a, c ≠ '\n' ∧ c ≠ '\r') (b : Str) :
    ∀ acc : Str, splitlinesCore (a ++ '\n' :: b) acc false =
      (acc.reverse ++ a) :: splitlinesCore b [] false := by
  induction a with
  | nil => intro acc; simp [splitlinesCore]
  | cons c t ih =>
    intro acc
    have hc := h c (List.mem_cons_self c t)
    rw [List.cons_append, splitlinesCore_cons_other (beq_eq_false_iff_ne.mpr hc.1)
      (beq_eq_false_iff_ne.mpr hc.2)]
    rw [ih (fun x hx => h x (List.mem_cons_of_mem c hx))]
    simp

/-- `splitlines` of a non-empty break-free string. -/
theorem splitlines_single (s : Str) (h : ∀ c ∈ s, c ≠ '\n' ∧ c ≠ '\r')
    (hne : s ≠ []) : splitlines s = [s] := by
  unfold splitlines
  rw [splitlinesCore_no_nl s h [] false]
  simp [hne]

/-- `splitlines` cuts at a `\n` following a break-free prefix. -/
theorem splitlines_break (a b : Str) (h : ∀ c ∈ a, c ≠ '\n' ∧ c ≠ '\r') :
    splitlines (a ++ '\n' :: b) = a :: splitlines b := by
  unfold splitlines
  rw [splitlinesCore_break a h b []]
  simp

/-- If `dropWhile` keeps a cons intact, its head fails the predicate. -/
theorem head_false_of_dropWhile_eq {p : Char → Bool} {c : Char} {t : Str}
    (h : List.dropWhile p (c :: t) = c :: t) : p c = false := by
  cases hpc : p c with
  | false => rfl
  | true =>
    rw [List.dropWhile_cons_of_pos hpc] at h
    have h1 : (List.dropWhile p t).length ≤ t.length :=
      (List.dropWhile_sublist (l := t) p).length_le
    have h2 := congrArg List.length h
    simp at h2
    omega

/-- `rstrip X = X` seen on the reversed string. -/
theorem rstrip_reverse_eq {X : Str} (h : rstrip X = X) :
    X.reverse.dropWhile pySpace = X.reverse := by
  have h2 := congrArg List.reverse h
  unfold rstrip at h2
  simpa using h2

/-- A right-stripped non-empty suffix keeps any prefix intact under
`rstrip`. -/
theorem rstrip_append {a X : Str} (hXr : rstrip X = X) (hne : X ≠ []) :
    rstrip (a ++ X) = a ++ X := by
  obtain ⟨c, t, hrev⟩ : ∃ c t, X.reverse = c :: t := by
    cases hx : X.reverse with
    | nil =>
      exfalso
      apply hne
      simpa using congrArg List.reverse hx
    | cons c t => exact ⟨c, t, rfl⟩
  have hdc : pySpace c = false := by
    have hd := rstrip_reverse_eq hXr
    rw [hrev] at hd
    exact head_false_of_dropWhile_eq hd
  have hX : X = t.reverse ++ [c] := by
    simpa using congrArg List.reverse hrev
  unfold rstrip
  rw [List.reverse_append, hrev, List.cons_append,
    List.dropWhile_cons_of_neg (by simp [hdc])]
  rw [List.reverse_cons, List.reverse_append]
  rw [hX]
  simp

/-- `lstrip` keeps a string whose head is not whitespace. -/
theorem lstrip_cons_of_nonspace {c : Char} (h : pySpace c = false) (s : Str) :
    lstrip (c :: s) = c :: s := by
  unfold lstrip
  rw [List.dropWhile_cons_of_neg (by simp [h])]

/-- `strip` of an already-stripped string. -/
theorem pyStrip_eq_self {X : Str} (hl : lstrip X = X) (hr : rstrip X = X) :
    pyStrip X = X := by
  unfold pyStrip
  rw [hl, hr]

/-- `strip` of a stripped string with one leading space. -/
theorem pyStrip_cons_space {X : Str} (hl : lstrip X = X) (hr : rstrip X = X) :
    pyStrip (' ' :: X) = X := by
  unfold pyStrip
  have h1 : lstrip (' ' :: X) = lstrip X := by
    unfold lstrip
    rw [List.dropWhile_cons_of_pos (by decide)]
  rw [h1, hl, hr]

/-- `strip` keeps a string with a non-space head and a right-stripped
non-empty tail intact. -/
theorem pyStrip_head_append {c : Char} {pre X : Str} (hc : pySpace c = false)
    (hXr : rstrip X = X) (hne : X ≠ []) :
    pyStrip ((c :: pre) ++ X) = (c :: pre) ++ X := by
  unfold pyStrip
  rw [List.cons_append, lstrip_cons_of_nonspace hc]
  exact rstrip_append (a := c :: pre) hXr hne

/-- Single-character substring search is membership. -/
theorem containsSub_single_iff {c : Char} {s : Str} :
    containsSub (c :: []) s = true ↔ c ∈ s := by
  induction s with
  | nil => simp [containsSub, List.isPrefixOf]
  | cons b t ih =>
    simp [containsSub, List.isPrefixOf, ih, List.mem_cons]

/-- No backtick in the text means no triple-backtick occurrence. -/
theorem findSubIdx_tick3_none {s : Str} (h : ¬ '`' ∈ s) :
    findSubIdx (strL ("```")) s = none := by
  induction s with
  | nil => rfl
  | cons b t ih =>
    have hb : ¬ b = '`' := by
      intro hb
      exact h (by rw [hb]; exact List.mem_cons_self _ _)
    have ht : ¬ '`' ∈ t := fun hc => h (List.mem_cons_of_mem b hc)
    have hbe : ('`' == b) = false := by
      cases hbe : ('`' == b) with
      | false => rfl
      | true => exact absurd (eq_of_beq hbe).symm hb
    have hpre : (strL ("```")).isPrefixOf (b :: t) = false := by
      have he : strL ("```") = '`' :: '`' :: '`' :: [] := rfl
      rw [he]
      simp [List.isPrefixOf, hbe]
    simp only [findSubIdx]
    rw [hpre, ih ht]
    rfl

/-- Code-block stripping is the identity on backtick-free text. -/
theorem stripCodeBlocks_of_no_tick {s : Str} (h : ¬ '`' ∈ s) :
    stripCodeBlocks s = s := by
  unfold stripCodeBlocks
  cases hl : s.length with
  | zero => rfl
  | succ n => simp [stripCodeAux, findSubIdx_tick3_none h]

/-- A string containing a non-space character does not strip to empty. -/
theorem pyStrip_isEmpty_false_of_mem {c : Char} {s : Str}
    (hc : pySpace c = false) (hm : c ∈ s) :
    (pyStrip s).isEmpty = false := by
  rw [List.isEmpty_eq_false]
  intro hnil
  have h1 : (lstrip s).reverse.dropWhile pySpace = [] := by
    unfold pyStrip rstrip at hnil
    simpa using congrArg List.reverse hnil
  have h2 : ∀ x ∈ (lstrip s).reverse, pySpace x := List.dropWhile_eq_nil_iff.mp h1
  have h3 : c ∈ lstrip s := by
    have hsplit : c ∈ List.takeWhile pySpace s ++ List.dropWhile pySpace s := by
      rw [List.takeWhile_append_dropWhile]
      exact hm
    rcases List.mem_append.mp hsplit with h' | h'
    · exact absurd (List.mem_takeWhile_imp h') (by simp [hc])
    · exact h'
  exact absurd (h2 c (List.mem_reverse.mpr h3)) (by simp [hc])

/-- The bullet line `- Thought: X` parses to one `thought` entry when `X` is
stripped, at least 8 characters, no placeholder, and passes the code
guardrails. -/
theorem parseBullet_thought (X : Str)
    (hXl : lstrip X = X) (hXr : rstrip X = X) (hXne : X ≠ [])
    (h8 : 8 ≤ X.length)
    (hPl : placeholderVals.contains (lower X) = false)
    (hB : containsSub (strL ("`")) X = false)
    (hPar : containsSub (strL ("()")) X = false)
    (hU : startsWith (strL ("_")) X = false) :
    parseBullet (strL ("- Thought: ") ++ X) = some (strL ("thought"), shortS X 420) := by
  have hXs : pyStrip X = X := pyStrip_eq_self hXl hXr
  have hdp : (strL ("- Thought: ") ++ X).dropWhile (fun c => c == '-') =
      ' ' :: 'T' :: 'h' :: 'o' :: 'u' :: 'g' :: 'h' :: 't' :: ':' :: ' ' :: X := rfl
  have hitem : pyStrip ((strL ("- Thought: ") ++ X).dropWhile (fun c => c == '-')) =
      'T' :: 'h' :: 'o' :: 'u' :: 'g' :: 'h' :: 't' :: ':' :: ' ' :: X := by
    rw [hdp]
    unfold pyStrip
    have h1 : lstrip (' ' :: 'T' :: 'h' :: 'o' :: 'u' :: 'g' :: 'h' :: 't' :: ':' :: ' ' :: X) =
        'T' :: 'h' :: 'o' :: 'u' :: 'g' :: 'h' :: 't' :: ':' :: ' ' :: X := by
      unfold lstrip
      rw [List.dropWhile_cons_of_pos (by decide), List.dropWhile_cons_of_neg (by decide)]
    rw [h1]
    exact rstrip_append (a := 'T' :: 'h' :: 'o' :: 'u' :: 'g' :: 'h' :: 't' :: ':' :: ' ' :: [])
      hXr hXne
  have hcol : containsSub (strL (":"))
      ('T' :: 'h' :: 'o' :: 'u' :: 'g' :: 'h' :: 't' :: ':' :: ' ' :: X) = true := rfl
  have hk : List.takeWhile (fun c => !(c == ':'))
      ('T' :: 'h' :: 'o' :: 'u' :: 'g' :: 'h' :: 't' :: ':' :: ' ' :: X) =
      'T' :: 'h' :: 'o' :: 'u' :: 'g' :: 'h' :: 't' :: [] := rfl
  have hv : (List.dropWhile (fun c => !(c == ':'))
      ('T' :: 'h' :: 'o' :: 'u' :: 'g' :: 'h' :: 't' :: ':' :: ' ' :: X)).drop 1 =
      ' ' :: X := rfl
  have htyp : lower (pyStrip ('T' :: 'h' :: 'o' :: 'u' :: 'g' :: 'h' :: 't' :: [])) =
      strL ("thought") := by decide
  have hcont : pyStrip (' ' :: X) = X := pyStrip_cons_space hXl hXr
  have hkind : cognitiveKinds.contains (strL ("thought")) = true := by decide
  have hXe : X.isEmpty = false := List.isEmpty_eq_false.mpr hXne
  have hnlt : ¬ X.length < 8 := Nat.not_lt.mpr h8
  simp only [parseBullet]
  rw [hitem]
  simp [hcol, hk, hv, htyp, hcont, hXs, hkind, hXe, hPl, hB, hPar, hU, hnlt]
  constructor
  · decide
  · simpa using hPl

/-- The bullet loop on the single line `- Thought: X` collects exactly that
entry. -/
theorem bulletsLoop_single_thought (X : Str)
    (hXl : lstrip X = X) (hXr : rstrip X = X) (hXne : X ≠ [])
    (h8 : 8 ≤ X.length)
    (hPl : placeholderVals.contains (lower X) = false)
    (hB : containsSub (strL ("`")) X = false)
    (hPar : containsSub (strL ("()")) X = false)
    (hU : startsWith (strL ("_")) X = false) :
    bulletsLoop [strL ("- Thought: ") ++ X] [] = [(strL ("thought"), shortS X 420)] := by
  have hps : pyStrip (strL ("- Thought: ") ++ X) = strL ("- Thought: ") ++ X :=
    pyStrip_head_append (by decide) hXr hXne
  have hie : (strL ("- Thought: ") ++ X).isEmpty = false := rfl
  have hsw : startsWith (strL ("-")) (strL ("- Thought: ") ++ X) = true := rfl
  simp only [bulletsLoop, hps, hie, hsw]
  rw [parseBullet_thought X hXl hXr hXne h8 hPl hB hPar hU]
  simp [bulletsLoop]

/-- The footer `hdr` + newline + `- Thought: X` parses to exactly one
`thought` entry. -/
theorem parseCognitiveLog_header_bullet (hdr X : Str)
    (hHdr : cogHeaders.contains (lower (pyStrip (rstrip hdr))) = true)
    (hHnl : ∀ c ∈ hdr, c ≠ '\n' ∧ c ≠ '\r')
    (hXl : lstrip X = X) (hXr : rstrip X = X) (hXne : X ≠ [])
    (hXnl : ∀ c ∈ X, c ≠ '\n' ∧ c ≠ '\r')
    (h8 : 8 ≤ X.length)
    (hPl : placeholderVals.contains (lower X) = false)
    (hB : containsSub (strL ("`")) X = false)
    (hPar : containsSub (strL ("()")) X = false)
    (hU : startsWith (strL ("_")) X = false) :
    parseCognitiveLog (hdr ++ strL ("\n- Thought: ") ++ X) =
      [(strL ("thought"), shortS X 420)] := by
  have hneBX : strL ("- Thought: ") ++ X ≠ [] := List.cons_ne_nil _ _
  have hnlAll : ∀ c ∈ strL ("- Thought: ") ++ X, c ≠ '\n' ∧ c ≠ '\r' := by
    intro c hc
    rcases List.mem_append.mp hc with h' | h'
    · have h'' : c ∈ '-' :: ' ' :: 'T' :: 'h' :: 'o' :: 'u' :: 'g' :: 'h' :: 't' :: ':' :: ' ' :: [] := h'
      fin_cases h'' <;> exact ⟨by decide, by decide⟩
    · exact hXnl c h'
  have hsp : splitlines (hdr ++ strL ("\n- Thought: ") ++ X) =
      [hdr, strL ("- Thought: ") ++ X] := by
    have hshape : hdr ++ strL ("\n- Thought: ") ++ X =
        hdr ++ '\n' :: (strL ("- Thought: ") ++ X) := by
      rw [List.append_assoc]
      rfl
    rw [hshape, splitlines_break hdr (strL ("- Thought: ") ++ X) hHnl]
    rw [splitlines_single _ hnlAll hneBX]
  have hmem : '-' ∈ hdr ++ strL ("\n- Thought: ") ++ X :=
    List.mem_append.mpr (.inl (List.mem_append.mpr (.inr (by decide))))
  have hne0 : (pyStrip (hdr ++ strL ("\n- Thought: ") ++ X)).isEmpty = false :=
    pyStrip_isEmpty_false_of_mem (by decide) hmem
  have hrs : rstrip (strL ("- Thought: ") ++ X) = strL ("- Thought: ") ++ X :=
    rstrip_append hXr hXne
  have hidx : findHeaderIdx [rstrip hdr, strL ("- Thought: ") ++ X] = some 0 := by
    have hHdrm : lower (pyStrip (rstrip hdr)) ∈ cogHeaders := by simpa using hHdr
    simp [findHeaderIdx, List.findIdx?_cons, hHdrm]
  simp only [parseCognitiveLog, hne0, hsp, List.map_cons, List.map_nil, hrs, hidx,
    Bool.false_eq_true, if_false]
  exact bulletsLoop_single_thought X hXl hXr hXne h8 hPl hB hPar hU

/-- The batch of a turn with the single cognitive entry `(thought, c)` holds
exactly one thought event, with `c` as content. -/
theorem mkEvents_filter_thought_single (c : Str) (wl : List Str) (s d : Str) :
    (mkEvents [(strL ("thought"), c)] wl s d).filter (fun e => e.1 == strL ("thought")) =
      [(strL ("thought"), c, strL ("Journal\n- thought: ") ++ c)] := by
  simp only [mkEvents, List.filter_append]
  have h1 : List.filter (fun e => e.1 == strL ("thought"))
      (([((strL ("thought") : Str), c)].take 12).map
        (fun kv => (kv.1, kv.2, strL ("Journal\n- ") ++ kv.1 ++ strL (": ") ++ kv.2))) =
      [(strL ("thought"), c, strL ("Journal\n- thought: ") ++ c)] := by
    have hb : (strL ("thought") == strL ("thought")) = true := by decide
    simp [List.filter_cons, hb]
    rfl
  have h2 : List.filter (fun e => e.1 == strL ("thought")) ((wl.take 3).map
      (fun w => (strL ("worklog"), w, strL ("Worklog\n- ") ++ w))) = [] := by
    rw [List.filter_eq_nil_iff]
    intro a ha
    rcases List.mem_map.mp ha with ⟨w, hw, rfl⟩
    have hb : (strL ("worklog") == strL ("thought")) = false := by decide
    simp [hb]
  have h3 : List.filter (fun e => e.1 == strL ("thought"))
      [((strL ("activity") : Str), s, d)] = [] := by
    have hb : (strL ("activity") == strL ("thought")) = false := by decide
    simp [List.filter_cons, hb]
  rw [h1, h2, h3]
  rfl

/-- C5 (amended): a response consisting of a recognised footer header line
followed by the bullet `- Thought: X`, where `X` is stripped, at least 8
characters, not a placeholder, and — as the code's guardrails additionally
require — free of backticks, free of `()`, and not starting with `_`, yields
exactly one `thought`-kind event whose content is `X` capped at 420
characters, whatever else the turn accumulated. -/
theorem explicit_thought_roundtrip
    (hdr X u ts : Str) (tcs : List ToolCall) (trs : List ToolResultEntry) (th : List Str)
    (hHdr : cogHeaders.contains (lower (pyStrip (rstrip hdr))) = true)
    (hHnl : ∀ c ∈ hdr, c ≠ '\n' ∧ c ≠ '\r')
    (hHtick : ¬ '`' ∈ hdr)
    (hXl : lstrip X = X) (hXr : rstrip X = X) (hXne : X ≠ [])
    (hXnl : ∀ c ∈ X, c ≠ '\n' ∧ c ≠ '\r')
    (h8 : 8 ≤ X.length)
    (hPl : placeholderVals.contains (lower X) = false)
    (hB : containsSub (strL ("`")) X = false)
    (hPar : containsSub (strL ("()")) X = false)
    (hU : startsWith (strL ("_")) X = false) :
    (buildEvents ⟨u, ts, tcs, trs, th, hdr ++ strL ("\n- Thought: ") ++ X⟩).filter
        (fun e => e.1 == strL ("thought")) =
      [(strL ("thought"), shortS X 420, strL ("Journal\n- thought: ") ++ shortS X 420)] := by
  obtain ⟨s, d, hbe⟩ :=
    buildEvents_shape ⟨u, ts, tcs, trs, th, hdr ++ strL ("\n- Thought: ") ++ X⟩
  rw [hbe]
  have htick : ¬ '`' ∈ hdr ++ strL ("\n- Thought: ") ++ X := by
    intro hmem
    rcases List.mem_append.mp hmem with h' | h'
    · rcases List.mem_append.mp h' with h'' | h''
      · exact hHtick h''
      · exact absurd h'' (by decide)
    · have hcs : containsSub ('`' :: []) X = true := containsSub_single_iff.mpr h'
      rw [show ('`' :: [] : Str) = strL ("`") from rfl] at hcs
      rw [hB] at hcs
      cases hcs
  have hie : (hdr ++ strL ("\n- Thought: ") ++ X).isEmpty = false := by
    cases hdr <;> rfl
  have hpc : parseCognitiveLog (stripCodeBlocks (hdr ++ strL ("\n- Thought: ") ++ X)) =
      [(strL ("thought"), shortS X 420)] := by
    rw [stripCodeBlocks_of_no_tick htick]
    exact parseCognitiveLog_header_bullet hdr X hHdr hHnl hXl hXr hXne hXnl h8 hPl hB hPar hU
  have hcog : cogOf ⟨u, ts, tcs, trs, th, hdr ++ strL ("\n- Thought: ") ++ X⟩ =
      [(strL ("thought"), shortS X 420)] := by
    simp only [cogOf, hie, hpc]
    rfl
  rw [hcog]
  exact mkEvents_filter_thought_single (shortS X 420) _ s d

/-- Witness for C5 (amended): footer "Journal" with
`- Thought: weighing two approaches to the fix`. -/
theorem explicit_thought_roundtrip_check :
    (buildEvents ⟨strL ("hi"), strL ("t"), [], [], [],
        strL ("Journal") ++ strL ("\n- Thought: ") ++
          strL ("weighing two approaches to the fix")⟩).filter
        (fun e => e.1 == strL ("thought")) =
      [(strL ("thought"), shortS (strL ("weighing two approaches to the fix")) 420,
        strL ("Journal\n- thought: ") ++
          shortS (strL ("weighing two approaches to the fix")) 420)] :=
  explicit_thought_roundtrip (strL ("Journal")) (strL ("weighing two approaches to the fix"))
    (strL ("hi")) (strL ("t")) [] [] []
    (by decide) (by decide) (by decide) (by decide) (by decide) (by decide)
    (by decide) (by decide) (by decide) (by decide) (by decide) (by decide)

/-- C5 counterexample: `X = "verify the helper() wiring first"` is 32
characters long and no placeholder, so the claim as stated promises one
thought event; the code's guardrail against `()` discards it and zero
thought-kind events are emitted. -/
theorem explicit_thought_guardrail_counterexample :
    8 ≤ (strL ("verify the helper() wiring first")).length ∧
    placeholderVals.contains (lower (strL ("verify the helper() wiring first"))) = false ∧
    (buildEvents ⟨strL ("hello"), strL ("t"), [], [], [],
        strL ("Journal\n- Thought: verify the helper() wiring first")⟩).filter
      (fun e => e.1 == strL ("thought")) = [] := by
  decide

set_option maxRecDepth 100000 in
/-- C2 (code bug): pruning a 500-event store (ids 1..500) with
`keep_last = 100` computes cutoff id 400 and deletes only `id < 400`,
leaving 101 events (ids 400..500) — one more than the newest 100. -/
theorem prune_keeps_101_of_500 :
    store500.rows.length = 500 ∧
    (prune store500 100).2 = some 400 ∧
    (prune store500 100).1.rows.length = 101 ∧
    (prune store500 100).1.rows.map (·.id) = (List.range 101).map (· + 400) := by
  decide

end AgentFramework
